import Mathlib

/-!
Verification of the relevance vector machine regressor (`sklearn_rvm/rvm.py`)
against its natural-language specification.

The source is embedded shallowly:
* real-valued program quantities become exact rationals (`ℚ`); the code never
  takes a square root on the paths modelled here (only squared norms), so the
  values of the embedded paths are rational;
* where a property is decided by float64 rounding rather than by the exact
  values — the sentinel-reduction behaviour of the sparsity/quality update —
  the IEEE 754 binary64 rounding of each numpy operation is modelled
  explicitly over `ℚ` (`fl64` below);
* numpy vectors of length `m` become functions `Fin m → ℚ` or lists `List ℚ`;
  matrices become `List (List ℚ)` (row lists) where indexing behaviour matters;
* fallible operations (numpy exceptions) become `Except String`;
* external dense linear-algebra primitives (`linalg.inv`, `linalg.pinv`) are
  collaborators of the repository and are abstracted as a record of functions,
  exactly as the spec treats the numeric backend;
* `math.log` is likewise an external primitive and is passed as a function
  parameter where the code calls it.

`INFINITY` is the sentinel of the repository for infinite precision
(`INFINITY = 1e20` in `rvm.py`, line 17) — note that it is a finite number.
-/

set_option autoImplicit false

namespace RVM

/-- The sentinel used by `rvm.py` for infinite precision: `INFINITY = 1e20`
(written as the integer numeral `10^20`). -/
def INFINITY : ℚ := 100000000000000000000

theorem INFINITY_pos : (0 : ℚ) < INFINITY := by norm_num [INFINITY]

/-- State of the basis-selection loop that the per-iteration action reads and
writes: the precision vector `alpha` and the activity mask `used_cond`
(`rvm.py`, lines 219-220, mutated at lines 252-265). The vectors have length
`m = n_samples + 1` (bias slot plus one slot per training sample). -/
structure LoopState (m : ℕ) where
  alpha : Fin m → ℚ
  used : Fin m → Bool

/-- Result of the action of one iteration: the updated precision vector and mask,
and the `reestimate_action` flag (`rvm.py`, lines 243-265). -/
structure StepOut (m : ℕ) where
  alpha : Fin m → ℚ
  used : Fin m → Bool
  reestimate : Bool

/-- The decision statistic `theta = q ** 2 - s` (`rvm.py`, line 249),
computed componentwise from the sparsity and quality vectors. -/
def theta {m : ℕ} (s q : Fin m → ℚ) (i : Fin m) : ℚ := q i ^ 2 - s i

/-- The action of one iteration on the popped candidate `idx` (`rvm.py`, lines
246-265): re-estimate when `theta > 0` and `alpha[idx] < INFINITY`; add when
`theta > 0` and `alpha[idx] >= INFINITY`; delete when `theta <= 0` and
`alpha[idx] < INFINITY`; otherwise leave the state unchanged. The branch
conditions are exactly those of the source (`alpha[idx]` compared with the sentinel,
not the mask). -/
def selectionStep {m : ℕ} (st : LoopState m) (s q : Fin m → ℚ) (idx : Fin m) : StepOut m :=
  if 0 < theta s q idx ∧ st.alpha idx < INFINITY then
    { alpha := Function.update st.alpha idx (s idx ^ 2 / (q idx ^ 2 - s idx)),
      used := st.used, reestimate := true }
  else if 0 < theta s q idx ∧ INFINITY ≤ st.alpha idx then
    { alpha := Function.update st.alpha idx (s idx ^ 2 / (q idx ^ 2 - s idx)),
      used := Function.update st.used idx true, reestimate := false }
  else if theta s q idx ≤ 0 ∧ st.alpha idx < INFINITY then
    { alpha := Function.update st.alpha idx INFINITY,
      used := Function.update st.used idx false, reestimate := false }
  else
    { alpha := st.alpha, used := st.used, reestimate := false }

/-- The convergence check of `rvm.py`, lines 267-284: with
`delta = log(alpha_new[idx]) - log(alpha_old[idx])`, the loop breaks exactly
when the action was a re-estimation, `delta < tol`, and every candidate that
was inactive before the action has `theta <= 0`. `log` is the external
`math.log`, passed as a parameter. -/
def shouldBreak {m : ℕ} (log : ℚ → ℚ) (tol : ℚ) (st : LoopState m) (out : StepOut m)
    (s q : Fin m → ℚ) (idx : Fin m) : Bool :=
  out.reestimate && decide (log (out.alpha idx) - log (st.alpha idx) < tol) &&
    decide (∀ i, st.used i = false → theta s q i ≤ 0)

theorem selectionStep_reestimate_used {m : ℕ} (st : LoopState m) (s q : Fin m → ℚ)
    (idx : Fin m) (h : (selectionStep st s q idx).reestimate = true) :
    (selectionStep st s q idx).used = st.used := by
  unfold selectionStep at h ⊢
  by_cases h1 : 0 < theta s q idx ∧ st.alpha idx < INFINITY
  · simp [h1]
  · by_cases h2 : 0 < theta s q idx ∧ INFINITY ≤ st.alpha idx
    · simp [h1, h2, not_lt.mpr h2.2] at h
    · by_cases h3 : theta s q idx ≤ 0 ∧ st.alpha idx < INFINITY
      · simp [h1, h2, h3, not_lt.mpr h3.1] at h
      · simp [h1, h2, h3]

theorem selectionStep_alpha_other {m : ℕ} (st : LoopState m) (s q : Fin m → ℚ)
    (idx j : Fin m) (hj : j ≠ idx) :
    (selectionStep st s q idx).alpha j = st.alpha j := by
  unfold selectionStep
  by_cases h1 : 0 < theta s q idx ∧ st.alpha idx < INFINITY
  · simp [h1, Function.update_noteq hj]
  · by_cases h2 : 0 < theta s q idx ∧ INFINITY ≤ st.alpha idx
    · simp [h1, h2, not_lt.mpr h2.2, Function.update_noteq hj]
    · by_cases h3 : theta s q idx ≤ 0 ∧ st.alpha idx < INFINITY
      · simp [h1, h2, h3, not_lt.mpr h3.1, Function.update_noteq hj]
      · simp [h1, h2, h3]

theorem selectionStep_used_other {m : ℕ} (st : LoopState m) (s q : Fin m → ℚ)
    (idx j : Fin m) (hj : j ≠ idx) :
    (selectionStep st s q idx).used j = st.used j := by
  unfold selectionStep
  by_cases h1 : 0 < theta s q idx ∧ st.alpha idx < INFINITY
  · simp [h1]
  · by_cases h2 : 0 < theta s q idx ∧ INFINITY ≤ st.alpha idx
    · simp [h1, h2, not_lt.mpr h2.2, Function.update_noteq hj]
    · by_cases h3 : theta s q idx ≤ 0 ∧ st.alpha idx < INFINITY
      · simp [h1, h2, h3, not_lt.mpr h3.1, Function.update_noteq hj]
      · simp [h1, h2, h3]

/-- Claim C3: the basis-selection loop terminates successfully exactly when,
for the candidate just processed, the action taken was a re-estimation,
`delta = log(alpha_new[idx]) - log(alpha_old[idx])` is below `tol`, and every
currently inactive candidate has `theta = q^2 - s <= 0`; when this predicate
fails the loop continues. The source tests the pre-action mask
(`old_used_cond`), but on a re-estimation the mask is unchanged, so the
predicate over the current mask is equivalent. -/
theorem break_iff_reestimate_tol_no_pending {m : ℕ} (log : ℚ → ℚ) (tol : ℚ)
    (st : LoopState m) (s q : Fin m → ℚ) (idx : Fin m) :
    shouldBreak log tol st (selectionStep st s q idx) s q idx = true ↔
      ((selectionStep st s q idx).reestimate = true ∧
        log ((selectionStep st s q idx).alpha idx) - log (st.alpha idx) < tol ∧
        ∀ i, (selectionStep st s q idx).used i = false → theta s q i ≤ 0) := by
  unfold shouldBreak
  simp only [Bool.and_eq_true, decide_eq_true_eq]
  constructor
  · rintro ⟨⟨hre, hd⟩, hth⟩
    refine ⟨hre, hd, ?_⟩
    rw [selectionStep_reestimate_used st s q idx hre]
    exact hth
  · rintro ⟨hre, hd, hth⟩
    refine ⟨⟨hre, hd⟩, ?_⟩
    rw [← selectionStep_reestimate_used st s q idx hre]
    exact hth

/-- Witness for C3: a concrete iteration (re-estimation with
`delta = 0 < tol = 1` and the only inactive candidate carrying
`theta = -1 <= 0`) on which the break predicate fires. -/
theorem break_iff_reestimate_tol_no_pending_witness :
    shouldBreak (fun _ => 0) 1 ⟨![1, INFINITY], ![true, false]⟩
      (selectionStep ⟨![1, INFINITY], ![true, false]⟩ ![1, 1] ![2, 0] 0) ![1, 1] ![2, 0] 0
      = true :=
  (break_iff_reestimate_tol_no_pending (fun _ => 0) 1 ⟨![1, INFINITY], ![true, false]⟩
    ![1, 1] ![2, 0] 0).mpr
    ⟨by norm_num [selectionStep, theta, INFINITY], by norm_num, by
      have hused : (selectionStep ⟨![1, INFINITY], ![true, false]⟩ ![1, 1] ![2, 0] 0).used
          = ![true, false] := by norm_num [selectionStep, theta, INFINITY]
      intro i hi
      rw [hused] at hi
      fin_cases i
      · simp at hi
      · norm_num [theta]⟩

/-- Claim C4: in every iteration exactly one of three actions (or a no-op)
is applied to the popped candidate, according to the sign of
`theta = q^2 - s` and the activity of the candidate: re-estimate
(`theta > 0`, active: precision becomes `s^2/(q^2 - s)`), add (`theta > 0`,
inactive: marked active with precision `s^2/(q^2 - s)`), delete
(`theta <= 0`, active: marked inactive, precision set to the sentinel),
or no change; all other entries are untouched. The hypothesis is the data-model invariant of the spec, that the mask agrees with finiteness of the precision. -/
theorem selection_action_trichotomy {m : ℕ} (st : LoopState m) (s q : Fin m → ℚ)
    (idx : Fin m) (hact : st.used idx = true ↔ st.alpha idx < INFINITY) :
    (0 < theta s q idx ∧ st.used idx = true →
      (selectionStep st s q idx).alpha idx = s idx ^ 2 / (q idx ^ 2 - s idx) ∧
      (selectionStep st s q idx).used = st.used ∧
      (selectionStep st s q idx).reestimate = true) ∧
    (0 < theta s q idx ∧ st.used idx = false →
      (selectionStep st s q idx).alpha idx = s idx ^ 2 / (q idx ^ 2 - s idx) ∧
      (selectionStep st s q idx).used idx = true ∧
      (selectionStep st s q idx).reestimate = false) ∧
    (theta s q idx ≤ 0 ∧ st.used idx = true →
      (selectionStep st s q idx).alpha idx = INFINITY ∧
      (selectionStep st s q idx).used idx = false) ∧
    (theta s q idx ≤ 0 ∧ st.used idx = false →
      selectionStep st s q idx = ⟨st.alpha, st.used, false⟩) ∧
    (∀ j, j ≠ idx →
      (selectionStep st s q idx).alpha j = st.alpha j ∧
      (selectionStep st s q idx).used j = st.used j) := by
  refine ⟨?_, ?_, ?_, ?_, ?_⟩
  · rintro ⟨hth, hu⟩
    have hlt : st.alpha idx < INFINITY := hact.mp hu
    simp [selectionStep, hth, hlt]
  · rintro ⟨hth, hu⟩
    have hnlt : ¬ st.alpha idx < INFINITY := by
      intro hlt
      simp [hact.mpr hlt] at hu
    simp [selectionStep, hth, hnlt, not_lt.mp hnlt]
  · rintro ⟨hth, hu⟩
    have hlt : st.alpha idx < INFINITY := hact.mp hu
    simp [selectionStep, hth, hlt, not_lt.mpr hth]
  · rintro ⟨hth, hu⟩
    have hnlt : ¬ st.alpha idx < INFINITY := by
      intro hlt
      simp [hact.mpr hlt] at hu
    simp [selectionStep, hnlt, not_lt.mpr hth]
  · intro j hj
    exact ⟨selectionStep_alpha_other st s q idx j hj, selectionStep_used_other st s q idx j hj⟩

/-- Witness for C4: on a concrete state satisfying the activity invariant,
the re-estimation branch fires for an active candidate with `theta > 0`. -/
theorem selection_action_trichotomy_witness :
    (selectionStep ⟨![1, INFINITY], ![true, false]⟩ (![1, 1] : Fin 2 → ℚ)
      ![2, 0] 0).reestimate = true :=
  ((selection_action_trichotomy ⟨![1, INFINITY], ![true, false]⟩ ![1, 1] ![2, 0] 0
    (by norm_num [INFINITY])).1 ⟨by norm_num [theta], rfl⟩).2.2

/-- Claim C10: after the chosen action the precision of the processed candidate is
strictly positive — in the re-estimate and add branches because
`s^2/(q^2 - s) > 0` when `s` is nonzero, in the delete branch because the
sentinel is positive, and in the no-op branch because it is unchanged — so
the logarithm in the convergence delta stays well-defined; and a candidate
with `theta > 0` but `s = 0` would violate this (the new precision is then
`0`, whose logarithm is undefined). -/
theorem step_alpha_positive {m : ℕ} (st : LoopState m) (s q : Fin m → ℚ) (idx : Fin m)
    (hpos : 0 < st.alpha idx) :
    ((0 < theta s q idx → s idx ≠ 0) → 0 < (selectionStep st s q idx).alpha idx) ∧
    (0 < theta s q idx ∧ s idx = 0 → (selectionStep st s q idx).alpha idx = 0) := by
  constructor
  · intro hs
    unfold selectionStep
    by_cases h1 : 0 < theta s q idx ∧ st.alpha idx < INFINITY
    · rw [if_pos h1]
      show 0 < Function.update st.alpha idx (s idx ^ 2 / (q idx ^ 2 - s idx)) idx
      rw [Function.update_same]
      exact div_pos (sq_pos_of_ne_zero (hs h1.1)) h1.1
    · by_cases h2 : 0 < theta s q idx ∧ INFINITY ≤ st.alpha idx
      · rw [if_neg h1, if_pos h2]
        show 0 < Function.update st.alpha idx (s idx ^ 2 / (q idx ^ 2 - s idx)) idx
        rw [Function.update_same]
        exact div_pos (sq_pos_of_ne_zero (hs h2.1)) h2.1
      · by_cases h3 : theta s q idx ≤ 0 ∧ st.alpha idx < INFINITY
        · rw [if_neg h1, if_neg h2, if_pos h3]
          show 0 < Function.update st.alpha idx INFINITY idx
          rw [Function.update_same]
          exact INFINITY_pos
        · rw [if_neg h1, if_neg h2, if_neg h3]
          exact hpos
  · rintro ⟨hth, hs0⟩
    unfold selectionStep
    by_cases hlt : st.alpha idx < INFINITY
    · rw [if_pos ⟨hth, hlt⟩]
      show Function.update st.alpha idx (s idx ^ 2 / (q idx ^ 2 - s idx)) idx = 0
      rw [Function.update_same, hs0]
      norm_num
    · rw [if_neg (fun hc => hlt hc.2), if_pos ⟨hth, not_lt.mp hlt⟩]
      show Function.update st.alpha idx (s idx ^ 2 / (q idx ^ 2 - s idx)) idx = 0
      rw [Function.update_same, hs0]
      norm_num

/-- Witness for C10: a concrete active candidate with `theta = 3 > 0` and
`s = 1` whose re-estimated precision `1/3` is strictly positive. -/
theorem step_alpha_positive_witness :
    0 < (selectionStep ⟨![(1 : ℚ)], ![true]⟩ ![1] ![2] 0).alpha 0 :=
  (step_alpha_positive ⟨![(1 : ℚ)], ![true]⟩ ![1] ![2] 0 (by norm_num)).1
    (fun _ => by norm_num)

/-- The number of active bases: count of `true` entries of the mask
(`np.sum(used_cond)` in the source). -/
def activeCount {m : ℕ} (used : Fin m → Bool) : ℕ :=
  (Finset.univ.filter fun i => used i = true).card

/-- The activity mask right after initialization (`rvm.py`, lines 220 and
227): `np.zeros_like(alpha, dtype=bool)` with entry `0` (the bias) set. -/
def initUsedCond (n : ℕ) : Fin (n + 1) → Bool := fun i => decide (i = 0)

/-- Claim C5: the mask starts with exactly the bias active, the number of
active bases never exceeds `n_samples + 1`, and a step can only leave the
mask entirely false by the explicit delete action pruning the last active
basis (so the bias stays active unless explicitly pruned). -/
theorem active_mask_bounds {n : ℕ} (st : LoopState (n + 1)) (s q : Fin (n + 1) → ℚ)
    (idx : Fin (n + 1)) :
    activeCount (initUsedCond n) = 1 ∧
    activeCount (selectionStep st s q idx).used ≤ n + 1 ∧
    ((∃ j, st.used j = true) →
      (∀ i, (selectionStep st s q idx).used i = false) →
      theta s q idx ≤ 0 ∧ st.alpha idx < INFINITY ∧ st.used idx = true ∧
        ∀ j, st.used j = true → j = idx) := by
  refine ⟨?_, ?_, ?_⟩
  · unfold activeCount initUsedCond
    simp [Finset.filter_eq']
  · refine le_trans (Finset.card_filter_le _ _) ?_
    simp
  · rintro ⟨j, hj⟩ hall
    have hjidx : ∀ k, st.used k = true → k = idx := by
      intro k hk
      by_contra hne
      have hk2 := hall k
      rw [selectionStep_used_other st s q idx k hne, hk] at hk2
      exact absurd hk2 (by simp)
    have hju : st.used idx = true := by
      have hj2 := hjidx j hj
      rw [hj2] at hj
      exact hj
    have hnew := hall idx
    by_cases h1 : 0 < theta s q idx ∧ st.alpha idx < INFINITY
    · exfalso
      have hsame : (selectionStep st s q idx).used idx = st.used idx := by
        unfold selectionStep
        rw [if_pos h1]
      rw [hsame, hju] at hnew
      exact absurd hnew (by simp)
    · by_cases h2 : 0 < theta s q idx ∧ INFINITY ≤ st.alpha idx
      · exfalso
        have htrue : (selectionStep st s q idx).used idx = true := by
          unfold selectionStep
          rw [if_neg h1, if_pos h2]
          simp
        rw [htrue] at hnew
        exact absurd hnew (by simp)
      · by_cases h3 : theta s q idx ≤ 0 ∧ st.alpha idx < INFINITY
        · exact ⟨h3.1, h3.2, hju, hjidx⟩
        · exfalso
          have hsame : (selectionStep st s q idx).used idx = st.used idx := by
            unfold selectionStep
            rw [if_neg h1, if_neg h2, if_neg h3]
          rw [hsame, hju] at hnew
          exact absurd hnew (by simp)

/-- Witness for C5: a concrete step in which the delete action prunes the
bias, the last active basis, leaving the mask entirely false — the
"explicitly pruned" escape of the claim. -/
theorem active_mask_bounds_witness :
    theta ![1, 1] (![0, 0] : Fin 2 → ℚ) 0 ≤ 0 ∧ (![(1 : ℚ), INFINITY]) 0 < INFINITY ∧
      (![true, false]) (0 : Fin 2) = true :=
  let T := (active_mask_bounds ⟨![1, INFINITY], ![true, false]⟩ ![1, 1] ![0, 0] 0).2.2
    ⟨0, rfl⟩ (by
      intro i
      fin_cases i <;>
        norm_num [selectionStep, theta, INFINITY, Function.update_apply])
  ⟨T.1, T.2.1, T.2.2.1⟩

/-- Structural base-2 logarithm on naturals (`log2Aux fuel n` with enough
fuel computes the floor of log2 of a positive `n`); written with explicit
fuel so that it unfolds definitionally, which the well-founded core
`Nat.log2` does not. -/
def log2Aux : ℕ → ℕ → ℕ
  | 0, _ => 0
  | fuel + 1, n => if 2 ≤ n then log2Aux fuel (n / 2) + 1 else 0

/-- Floor of log2 for a positive natural. -/
def natLog2 (n : ℕ) : ℕ := log2Aux n n

/-- Decides `2 ^ e ≤ a / d` for a positive rational `a / d` using only
natural-number arithmetic. -/
def le2pow (a d : ℕ) (e : ℤ) : Bool :=
  if 0 ≤ e then decide (d * 2 ^ e.toNat ≤ a) else decide (d ≤ a * 2 ^ (-e).toNat)

/-- The binade of the positive rational `a / d`: the unique `e` with
`2 ^ e ≤ a / d < 2 ^ (e + 1)`, located from the bit lengths of `a` and `d`
and corrected by direct comparison. -/
def floorLog2Pos (a d : ℕ) : ℤ :=
  let g : ℤ := (natLog2 a : ℤ) - (natLog2 d : ℤ)
  if le2pow a d g then (if le2pow a d (g + 1) then g + 1 else g) else g - 1

/-- Round the positive rational `a * 2 ^ s / d` to the nearest integer,
ties to even — the IEEE 754 default rounding applied to the scaled
significand. -/
def roundSig (a d : ℕ) (s : ℤ) : ℕ :=
  let an := if 0 ≤ s then a * 2 ^ s.toNat else a
  let dn := if 0 ≤ s then d else d * 2 ^ (-s).toNat
  let q := an / dn
  let r := an % dn
  if 2 * r < dn then q
  else if dn < 2 * r then q + 1
  else if q % 2 = 0 then q else q + 1

/-- Numerator and denominator of the binary64 value nearest to the positive
rational `a / d`: the 53-bit significand of its binade, rounded to nearest
with ties to even, rescaled. -/
def fl64Core (a d : ℕ) : ℤ × ℕ :=
  let e := floorLog2Pos a d
  let n := roundSig a d (52 - e)
  if 52 ≤ e then (Int.ofNat (n * 2 ^ (e - 52).toNat), 1)
  else (Int.ofNat n, 2 ^ (52 - e).toNat)

/-- Rounding of an exact rational to the nearest IEEE 754 binary64 value
(round to nearest, ties to even), restricted to the normal range: every
quantity in this development is far from binary64 overflow and underflow,
so this is exactly what each numpy float64 elementwise operation does to
the exact result of that operation. Cross-checked against hardware
float64 on the concrete inputs used below. -/
def fl64 (x : ℚ) : ℚ :=
  if x.num = 0 then 0
  else if 0 < x.num then
    mkRat (fl64Core x.num.toNat x.den).1 (fl64Core x.num.toNat x.den).2
  else
    mkRat (-(fl64Core (-x.num).toNat x.den).1) (fl64Core (-x.num).toNat x.den).2

/-- The sparsity and quality vectors computed at the end of
`_calculate_statistics` (`rvm.py`, lines 183-184), as numpy evaluates them
in float64: each elementwise operation rounds its exact result to binary64,
so `s = fl(fl(alpha * S) / fl(alpha - S))` and
`q = fl(fl(alpha * Q) / fl(alpha - S))`, componentwise over all
`n_samples + 1` candidates (the stored inputs are themselves binary64
values). -/
def sqFactors64 {m : ℕ} (alpha S Q : Fin m → ℚ) : (Fin m → ℚ) × (Fin m → ℚ) :=
  (fun i => fl64 (fl64 (alpha i * S i) / fl64 (alpha i - S i)),
   fun i => fl64 (fl64 (alpha i * Q i) / fl64 (alpha i - S i)))

/-- Counterexample for C7: the reduction `s[i] = S[i]` for an inactive
candidate is not exact in the program. At `S = 2 ^ 16` the sentinel
subtraction `1e20 - 65536` is exactly representable (65536 is a multiple of
the 2^14 spacing at 1e20), and the quotient `1e20 * 65536 / (1e20 - 65536)`
lies 2.95 ulps above 65536, so float64 rounds it to `65536 + 3 * 2 ^ (-36)`,
which differs from `S`. (For small `S`, such as `S = 1`, rounding absorbs
`S` in the subtraction and the reduction does hold bit-for-bit — which is
why the property must be settled in the binary64 model, not over exact
rationals.) -/
theorem sq_factors_sentinel_not_exact :
    (![INFINITY] : Fin 1 → ℚ) 0 = INFINITY ∧
      (sqFactors64 ![INFINITY] ![65536] ![65536]).1 0 ≠ (![(65536 : ℚ)]) 0 := by
  refine ⟨rfl, ?_⟩
  show fl64 (fl64 (INFINITY * 65536) / fl64 (INFINITY - 65536)) ≠ 65536
  have e1 : INFINITY * (65536 : ℚ) = mkRat 6553600000000000000000000 1 := by
    rw [Rat.mkRat_eq_div]
    norm_num [INFINITY]
  have e2 : INFINITY - (65536 : ℚ) = mkRat 99999999999999934464 1 := by
    rw [Rat.mkRat_eq_div]
    norm_num [INFINITY]
  rw [e1, e2]
  have e3 : fl64 (mkRat 6553600000000000000000000 1)
      = mkRat 6553600000000000000000000 1 := rfl
  have e4 : fl64 (mkRat 99999999999999934464 1) = mkRat 99999999999999934464 1 := rfl
  rw [e3, e4]
  have e5 : (mkRat 6553600000000000000000000 1 : ℚ) / mkRat 99999999999999934464 1
      = mkRat 100000000000000000000 1525878906249999 := by
    rw [Rat.mkRat_eq_div, Rat.mkRat_eq_div, Rat.mkRat_eq_div]
    norm_num
  rw [e5]
  have e6 : fl64 (mkRat 100000000000000000000 1525878906249999)
      = mkRat 4503599627370499 68719476736 := rfl
  rw [e6]
  intro h
  exact absurd h (of_decide_eq_true rfl)

theorem fl64_sentinel_reduction_at_one :
    fl64 (fl64 (INFINITY * 1) / fl64 (INFINITY - 1)) = 1 := by
  have e1 : INFINITY * (1 : ℚ) = mkRat 100000000000000000000 1 := by
    rw [Rat.mkRat_eq_div]
    norm_num [INFINITY]
  have e2 : INFINITY - (1 : ℚ) = mkRat 99999999999999999999 1 := by
    rw [Rat.mkRat_eq_div]
    norm_num [INFINITY]
  rw [e1, e2]
  have e3 : fl64 (mkRat 100000000000000000000 1) = mkRat 100000000000000000000 1 := rfl
  have e4 : fl64 (mkRat 99999999999999999999 1) = mkRat 100000000000000000000 1 := rfl
  rw [e3, e4]
  have e5 : (mkRat 100000000000000000000 1 : ℚ) / mkRat 100000000000000000000 1
      = 1 := by
    rw [Rat.mkRat_eq_div]
    norm_num
  rw [e5]
  rfl

/-- Claim C7 as amended: `_calculate_statistics` computes, for every
candidate, the binary64 evaluation of `s[i] = alpha[i]*S[i]/(alpha[i]-S[i])`
and `q[i] = alpha[i]*Q[i]/(alpha[i]-S[i])` (each numpy operation rounds);
for an inactive candidate (precision at the sentinel `1e20`) the reduction
to `s[i] = S[i]`, `q[i] = Q[i]` holds where rounding absorbs `S[i]` — at
`S[i] = Q[i] = 1` it is bit-exact, because `fl(1e20 - 1) = 1e20` — but not
for every candidate value (at `S[i] = 2 ^ 16` the computed `s[i]` differs
from `S[i]`; see the counterexample), so the reduction is approximate in
general. -/
theorem sq_factors_formula {m : ℕ} (alpha S Q : Fin m → ℚ) (i : Fin m) :
    ((sqFactors64 alpha S Q).1 i = fl64 (fl64 (alpha i * S i) / fl64 (alpha i - S i)) ∧
     (sqFactors64 alpha S Q).2 i = fl64 (fl64 (alpha i * Q i) / fl64 (alpha i - S i))) ∧
    (sqFactors64 ![INFINITY] ![1] ![1]).1 0 = (![(1 : ℚ)]) 0 ∧
    (sqFactors64 ![INFINITY] ![1] ![1]).2 0 = (![(1 : ℚ)]) 0 := by
  refine ⟨⟨rfl, rfl⟩, ?_, ?_⟩
  · show fl64 (fl64 (INFINITY * 1) / fl64 (INFINITY - 1)) = 1
    exact fl64_sentinel_reduction_at_one
  · show fl64 (fl64 (INFINITY * 1) / fl64 (INFINITY - 1)) = 1
    exact fl64_sentinel_reduction_at_one

/-- The numeric backend consumed by the statistics code: `linalg.inv` may
fail (raise `LinAlgError`), `linalg.pinv` is total. Dense linear algebra is
an external collaborator of this repository (numpy), so it is abstracted as
a record of functions, as the resource model of the spec prescribes. -/
structure LinAlg where
  inv : List (List ℚ) → Except String (List (List ℚ))
  pinv : List (List ℚ) → List (List ℚ)

/-- numpy `1 / tmp` on a matrix: elementwise reciprocal (the source takes
this branch only when `tmp` is 1×1). -/
def scalarReciprocal (tmp : List (List ℚ)) : List (List ℚ) :=
  tmp.map fun row => row.map fun x => 1 / x

/-- The posterior-covariance inversion dispatch of `_calculate_statistics`
(`rvm.py`, lines 159-166, repeated verbatim at lines 290-297): a 1×1 system
is inverted by scalar reciprocal; otherwise `linalg.inv` is attempted and a
`LinAlgError` is caught and answered with `linalg.pinv`. The return type of the
function is total: no inversion failure propagates to the caller. -/
def invertPosterior (la : LinAlg) (tmp : List (List ℚ)) : List (List ℚ) :=
  if tmp.length = 1 then scalarReciprocal tmp
  else
    match la.inv tmp with
    | Except.ok Sg => Sg
    | Except.error _ => la.pinv tmp

/-- Claim C9: with exactly one active member the posterior covariance is the
scalar reciprocal; otherwise the standard inverse is used when it succeeds
and the pseudo-inverse when inversion fails — and in every case
`invertPosterior` returns a matrix, so the failure is never surfaced. -/
theorem invert_posterior_cases (la : LinAlg) (tmp : List (List ℚ)) :
    (tmp.length = 1 → invertPosterior la tmp = scalarReciprocal tmp) ∧
    (tmp.length ≠ 1 → ∀ Sg, la.inv tmp = Except.ok Sg → invertPosterior la tmp = Sg) ∧
    (tmp.length ≠ 1 → ∀ e, la.inv tmp = Except.error e →
      invertPosterior la tmp = la.pinv tmp) := by
  refine ⟨?_, ?_, ?_⟩
  · intro h
    simp [invertPosterior, h]
  · intro h Sg hok
    simp [invertPosterior, h, hok]
  · intro h e herr
    simp [invertPosterior, h, herr]

/-- A concrete backend for the C9 witness: inversion always reports
`LinAlgError`, the pseudo-inverse answers a fixed matrix. -/
def failingBackend : LinAlg where
  inv := fun _ => Except.error "LinAlgError"
  pinv := fun _ => [[0]]

/-- Witness for C9: on a 2×2 system whose inversion fails, the dispatch
falls back to the pseudo-inverse instead of propagating the failure. -/
theorem invert_posterior_cases_witness :
    invertPosterior failingBackend [[1, 0], [0, 1]] =
      failingBackend.pinv [[1, 0], [0, 1]] :=
  (invert_posterior_cases failingBackend [[1, 0], [0, 1]]).2.2 (by decide)
    "LinAlgError" rfl

/-- How the numpy `np.max` receives its second positional argument: it is the
`axis` parameter of `np.amax`, not a second value to compare. A float-typed
axis is rejected with `TypeError` before its value is looked at; the payload
of `floatArg` records the square of the float actually passed (the variance,
exactly representable over `ℚ`, where the standard deviation itself is not)
and is never inspected. -/
inductive NpAxisArg : Type
  | noneArg : NpAxisArg
  | floatArg : ℚ → NpAxisArg

/-- numpy `np.max` (alias of `np.amax`) applied to a scalar first argument:
with `axis=None` it returns the scalar; a float-typed `axis` raises
`TypeError` (floats do not implement the integer interface numpy requires
of an axis). -/
def npMaxScalar (a : ℚ) (axis : NpAxisArg) : Except String ℚ :=
  match axis with
  | NpAxisArg.noneArg => Except.ok a
  | NpAxisArg.floatArg _ => Except.error "TypeError"

/-- Arithmetic mean of a vector, as numpy computes it. -/
def listMean (xs : List ℚ) : ℚ := xs.sum / xs.length

/-- numpy variance `np.var`: the square of `np.std`. -/
def npVariance (xs : List ℚ) : ℚ := listMean (xs.map fun x => (x - listMean xs) ^ 2)

/-- The noise-variance initialization of `fit` (`rvm.py`, line 216):
`sigma_squared = (np.max(1e-6, np.std(y)) ** 2) * 0.1`. The second
positional argument of `np.max` is `axis`; the call passes the Python float
`np.std(y)` there. -/
def initSigmaSquared (y : List ℚ) : Except String ℚ :=
  (npMaxScalar (1 / 1000000) (NpAxisArg.floatArg (npVariance y))).map
    fun mx => mx ^ 2 * (1 / 10)

/-- Claim C2 (code bug): the initialization never succeeds. For every target
vector `y` — the failing input `y = [0, 1]` included — the call
`np.max(1e-6, np.std(y))` passes the float `np.std(y)` as the `axis`
argument of `np.amax` and raises `TypeError`, so `fit` never produces the
claimed strictly positive value `0.1 * max(1e-6, variance(y))` (which the
literal expression, had `np.max` been the binary `max`, would not compute
either: squaring gives `0.1 * max(1e-12, variance(y))`). -/
theorem init_sigma_squared_raises (y : List ℚ) :
    initSigmaSquared y = Except.error "TypeError" := rfl

/-- The estimator attributes relevant to fitting and prediction.
`sigma_squared_` (trailing underscore) is what `fit` stores;
`sigma_squared` (no underscore) is what `predict` checks for. -/
inductive ModelAttr : Type
  | relevance_vectors_ : ModelAttr
  | mu_ : ModelAttr
  | Sigma_ : ModelAttr
  | sigma_squared_ : ModelAttr
  | sigma_squared : ModelAttr
  deriving DecidableEq

/-- The attributes a successful `fit` would store on the estimator
(`rvm.py`, lines 321-327) — the noise variance under `sigma_squared_`. -/
def fitStoredAttrs : List ModelAttr :=
  [ModelAttr.relevance_vectors_, ModelAttr.mu_, ModelAttr.Sigma_, ModelAttr.sigma_squared_]

/-- The attributes `predict` demands through `check_is_fitted` (`rvm.py`,
line 352) — the last one is `sigma_squared`, without the underscore, which
no code path ever sets. -/
def predictCheckedAttrs : List ModelAttr :=
  [ModelAttr.relevance_vectors_, ModelAttr.mu_, ModelAttr.Sigma_, ModelAttr.sigma_squared]

/-- The sklearn `check_is_fitted(estimator, attributes)` helper: passes iff every
required attribute is present on the estimator, and raises `NotFittedError`
otherwise. -/
def check_is_fitted (present required : List ModelAttr) : Bool :=
  required.all fun a => decide (a ∈ present)

/-- `predict` raises `NotFittedError` exactly when the check fails
(`rvm.py`, line 352). -/
def predictRaisesNotFitted (present : List ModelAttr) : Bool :=
  ! check_is_fitted present predictCheckedAttrs

/-- Claim C1 (code bug): before `fit` the estimator has none of the
attributes and `predict` raises `NotFittedError`, as claimed — but after a
successful `fit` it still raises, because `check_is_fitted` demands the
attribute `sigma_squared` while `fit` stores `sigma_squared_`. (The claimed
equivalence also fails for the independent reason that `fit` never returns
successfully; see the C2 theorem on the initialization.) -/
theorem predict_raises_even_after_fit :
    predictRaisesNotFitted [] = true ∧
      predictRaisesNotFitted fitStoredAttrs = true := by decide

/-- Dot product, as numpy computes `a @ b` and
`np.sum(np.multiply(a, b))` for equal-length vectors. -/
def dotL (xs ys : List ℚ) : ℚ := ((xs.zip ys).map fun p => p.1 * p.2).sum

/-- Matrix-vector product `M @ v` over row lists (`np.dot(Phi, mu)`). -/
def matVecL (M : List (List ℚ)) (v : List ℚ) : List ℚ := M.map fun row => dotL row v

/-- Elementwise difference `y - y_pred`. -/
def subL (xs ys : List ℚ) : List ℚ := (xs.zip ys).map fun p => p.1 - p.2

/-- `linalg.norm(v) ** 2`: the sum of squares (the square root taken by
`norm` is immediately squared away by the source). -/
def normSqL (xs : List ℚ) : ℚ := (xs.map fun x => x ^ 2).sum

/-- `np.sum` over a boolean mask: the number of `true` entries. -/
def countTrue (bs : List Bool) : ℕ := (bs.filter fun b => b).length

/-- The noise-variance re-estimation (`rvm.py`, lines 300-304):
`sigma_squared = norm(y - Phi @ mu)**2 /
(n_samples - np.sum(used_cond) + np.sum(alpha[used_cond] * np.diag(Sigma)))`. -/
def sigmaSquaredUpdate (nSamples : ℕ) (y : List ℚ) (Phi : List (List ℚ)) (mu : List ℚ)
    (used : List Bool) (alphaUsed sigmaDiag : List ℚ) : ℚ :=
  normSqL (subL y (matVecL Phi mu)) /
    ((nSamples : ℚ) - (countTrue used : ℚ) + dotL alphaUsed sigmaDiag)

/-- The spec formula of §4.4, written with big-operator sums:
`sigma² = ||y - Phi mu||² / (n_samples - |activeMask| + Σ alpha_active ⊙ diag Sigma)`. -/
def specNoiseVariance (nSamples : ℕ) {n k : ℕ} (y : Fin n → ℚ) (Phi : Fin n → Fin k → ℚ)
    (mu : Fin k → ℚ) (activeSize : ℕ) (alphaA sigmaDiag : Fin k → ℚ) : ℚ :=
  (∑ i, (y i - ∑ j, Phi i j * mu j) ^ 2) /
    ((nSamples : ℚ) - (activeSize : ℚ) + ∑ j, alphaA j * sigmaDiag j)

theorem dotL_cons (a b : ℚ) (as bs : List ℚ) :
    dotL (a :: as) (b :: bs) = a * b + dotL as bs := rfl

theorem subL_cons (a b : ℚ) (as bs : List ℚ) :
    subL (a :: as) (b :: bs) = (a - b) :: subL as bs := rfl

theorem dotL_ofFn {k : ℕ} (f g : Fin k → ℚ) :
    dotL (List.ofFn f) (List.ofFn g) = ∑ j, f j * g j := by
  induction k with
  | zero => simp [dotL]
  | succ k ih => rw [List.ofFn_succ, List.ofFn_succ, dotL_cons, ih, Fin.sum_univ_succ]

theorem subL_ofFn {n : ℕ} (f g : Fin n → ℚ) :
    subL (List.ofFn f) (List.ofFn g) = List.ofFn fun i => f i - g i := by
  induction n with
  | zero => simp [subL]
  | succ n ih => rw [List.ofFn_succ, List.ofFn_succ, subL_cons, ih, List.ofFn_succ]

theorem normSqL_ofFn {n : ℕ} (f : Fin n → ℚ) : normSqL (List.ofFn f) = ∑ i, f i ^ 2 := by
  unfold normSqL
  rw [List.map_ofFn, List.sum_ofFn]
  rfl

theorem matVecL_ofFn {n k : ℕ} (Phi : Fin n → Fin k → ℚ) (mu : Fin k → ℚ) :
    matVecL (List.ofFn fun i => List.ofFn (Phi i)) (List.ofFn mu)
      = List.ofFn fun i => ∑ j, Phi i j * mu j := by
  unfold matVecL
  rw [List.map_ofFn]
  congr 1
  funext i
  simp [Function.comp, dotL_ofFn]

/-- Claim C8: the recomputed noise variance equals the formula of the spec:
`||y - Phi mu||² / (n_samples - |activeMask| + Σ(alpha_active ⊙ diag Sigma))`
— the list computation of the source coincides with the big-operator statement —
and under the precondition of the spec of a strictly positive denominator the
result is nonnegative. -/
theorem sigma_squared_update_eq {n k : ℕ} (nSamples : ℕ) (y : Fin n → ℚ)
    (Phi : Fin n → Fin k → ℚ) (mu alphaA sigmaDiag : Fin k → ℚ) (used : List Bool)
    (hden : 0 < (nSamples : ℚ) - (countTrue used : ℚ) + ∑ j, alphaA j * sigmaDiag j) :
    sigmaSquaredUpdate nSamples (List.ofFn y) (List.ofFn fun i => List.ofFn (Phi i))
        (List.ofFn mu) used (List.ofFn alphaA) (List.ofFn sigmaDiag)
      = specNoiseVariance nSamples y Phi mu (countTrue used) alphaA sigmaDiag ∧
    0 ≤ sigmaSquaredUpdate nSamples (List.ofFn y) (List.ofFn fun i => List.ofFn (Phi i))
        (List.ofFn mu) used (List.ofFn alphaA) (List.ofFn sigmaDiag) := by
  have heq : sigmaSquaredUpdate nSamples (List.ofFn y)
      (List.ofFn fun i => List.ofFn (Phi i)) (List.ofFn mu) used (List.ofFn alphaA)
      (List.ofFn sigmaDiag)
      = specNoiseVariance nSamples y Phi mu (countTrue used) alphaA sigmaDiag := by
    unfold sigmaSquaredUpdate specNoiseVariance
    rw [matVecL_ofFn, subL_ofFn, normSqL_ofFn, dotL_ofFn]
  refine ⟨heq, ?_⟩
  rw [heq]
  unfold specNoiseVariance
  apply div_nonneg
  · apply Finset.sum_nonneg
    intro i _
    positivity
  · exact le_of_lt hden

/-- Witness for C8: a one-sample, one-active-basis instance with
denominator `1 - 1 + 1 = 1 > 0` and nonnegative result. -/
theorem sigma_squared_update_eq_witness :
    0 ≤ sigmaSquaredUpdate 1 (List.ofFn (![2] : Fin 1 → ℚ))
        (List.ofFn fun i => List.ofFn ((![![1]] : Fin 1 → Fin 1 → ℚ) i))
        (List.ofFn (![1] : Fin 1 → ℚ)) [true] (List.ofFn (![1] : Fin 1 → ℚ))
        (List.ofFn (![1] : Fin 1 → ℚ)) :=
  (sigma_squared_update_eq 1 ![2] ![![1]] ![1] ![1] ![1] [true]
    (by norm_num [countTrue, Fin.sum_univ_one])).2

/-- Keep the entries of `xs` whose mask entry is `true` — the value of
numpy boolean-mask indexing once the lengths agree. -/
def maskFilter {α : Type} : List α → List Bool → List α
  | [], _ => []
  | _, [] => []
  | x :: xs, b :: bs => if b then x :: maskFilter xs bs else maskFilter xs bs

/-- numpy boolean-mask indexing `arr[mask]` along the first axis: raises
`IndexError` unless the mask length matches that dimension. -/
def boolMask {α : Type} (xs : List α) (mask : List Bool) : Except String (List α) :=
  if xs.length = mask.length then Except.ok (maskFilter xs mask)
  else Except.error "IndexError"

/-- numpy boolean-mask indexing `arr[:, mask]` along the second axis:
raises `IndexError` unless the mask length matches the column count. -/
def boolMaskCols (rows : List (List ℚ)) (mask : List Bool) :
    Except String (List (List ℚ)) :=
  if rows.all fun row => decide (row.length = mask.length) then
    Except.ok (rows.map fun row => maskFilter row mask)
  else Except.error "IndexError"

/-- The model state stored by a completed `fit` (`rvm.py`, lines 321-327). -/
structure FittedModel where
  relevance_vectors_ : List (List ℚ)
  mu_ : List ℚ
  Sigma_ : List (List ℚ)
  sigma_squared_ : ℚ
  deriving DecidableEq

/-- The model-extraction epilogue of `fit` (`rvm.py`, lines 311-327), on the
final state of the loop: split the precision vector into bias and basis parts,
keep the active basis entries and training rows, threshold both by
`threshold_alpha`, build the pruned selection mask (bias slot first), and
index `mu` and `Sigma` with it, carrying the noise variance over. Each
indexing step propagates the numpy `IndexError` on a length mismatch. -/
def extractModel (X : List (List ℚ)) (alpha : List ℚ) (used : List Bool)
    (mu : List ℚ) (Sigma : List (List ℚ)) (threshold_alpha sigma_squared : ℚ) :
    Except String FittedModel :=
  match alpha, used with
  | a0 :: arest, _u0 :: urest => do
    let alpha_basis ← boolMask arest urest
    let X_rv ← boolMask X urest
    let cond_bias_rv := decide (a0 < threshold_alpha)
    let cond_basis_rv := alpha_basis.map fun a => decide (a < threshold_alpha)
    let rv ← boolMask X_rv cond_basis_rv
    let selected_basis := cond_bias_rv :: cond_basis_rv
    let muSel ← boolMask mu selected_basis
    let SigmaRows ← boolMask Sigma selected_basis
    let SigmaSel ← boolMaskCols SigmaRows selected_basis
    Except.ok ⟨rv, muSel, SigmaSel, sigma_squared⟩
  | _, _ => Except.error "IndexError"

/-- The pruned selection mask over {bias} ∪ {active basis functions}
(`selected_basis`, `rvm.py` line 323). -/
def selectedMask (a0 : ℚ) (arest : List ℚ) (urest : List Bool) (thr : ℚ) : List Bool :=
  decide (a0 < thr) :: ((maskFilter arest urest).map fun a => decide (a < thr))

theorem maskFilter_length {α : Type} :
    ∀ (xs : List α) (mask : List Bool), xs.length = mask.length →
      (maskFilter xs mask).length = countTrue mask := by
  intro xs
  induction xs with
  | nil =>
    intro mask h
    cases mask with
    | nil => rfl
    | cons b bs => simp at h
  | cons x xs ih =>
    intro mask h
    cases mask with
    | nil => simp at h
    | cons b bs =>
      simp only [List.length_cons, add_left_inj] at h
      cases b
      · simpa [maskFilter, countTrue, List.filter] using ih bs h
      · simpa [maskFilter, countTrue, List.filter] using ih bs h

theorem maskFilter_mem {α : Type} :
    ∀ (xs : List α) (mask : List Bool) (x : α), x ∈ maskFilter xs mask → x ∈ xs := by
  intro xs
  induction xs with
  | nil =>
    intro mask x hx
    cases mask <;> simp [maskFilter] at hx
  | cons y ys ih =>
    intro mask x hx
    cases mask with
    | nil => simp [maskFilter] at hx
    | cons b bs =>
      cases b
      · exact List.mem_cons_of_mem y (ih bs x (by simpa [maskFilter] using hx))
      · rcases (by simpa [maskFilter] using hx : x = y ∨ x ∈ maskFilter ys bs) with h | h
        · simp [h]
        · exact List.mem_cons_of_mem y (ih bs x h)

theorem maskFilter_threshold (thr : ℚ) :
    ∀ (X : List (List ℚ)) (arest : List ℚ) (urest : List Bool),
      X.length = urest.length → arest.length = urest.length →
      maskFilter (maskFilter X urest)
          ((maskFilter arest urest).map fun a => decide (a < thr))
        = ((X.zip arest).zip urest).filterMap
            fun p => if p.2 = true ∧ p.1.2 < thr then some p.1.1 else none := by
  intro X
  induction X with
  | nil =>
    intro arest urest h1 h2
    cases urest with
    | nil =>
      cases arest with
      | nil => rfl
      | cons a as => simp at h2
    | cons u urest => simp at h1
  | cons x X ih =>
    intro arest urest h1 h2
    cases urest with
    | nil => simp at h1
    | cons u urest =>
      cases arest with
      | nil => simp at h2
      | cons a arest =>
        simp only [List.length_cons, add_left_inj] at h1 h2
        cases u
        · simpa [maskFilter, List.zip_cons_cons, List.filterMap_cons]
            using ih arest urest h1 h2
        · by_cases ha : a < thr
          · simpa [maskFilter, ha, List.zip_cons_cons, List.filterMap_cons]
              using ih arest urest h1 h2
          · simpa [maskFilter, ha, List.zip_cons_cons, List.filterMap_cons]
              using ih arest urest h1 h2

/-- Counterexample for C6: the claim asserts extraction is correct
"regardless of whether the bias basis is still active", but when the bias
has been deleted `mu` has one entry per active basis while the pruned
selection mask has length `1 + #(active non-bias)` — one more — so indexing
`mu[selected_basis]` raises `IndexError`. Concrete final state: two
samples, basis 1 active, bias inactive. -/
theorem extract_model_dead_bias_error :
    extractModel [[0], [1]] [INFINITY, 1, INFINITY] [false, true, false]
      [1] [[1]] 100000 1 = Except.error "IndexError" := rfl

/-- Claim C6 as amended: provided the bias basis is still active at loop
exit (so `mu` and `Sigma` have a bias slot plus one slot per active basis),
extraction succeeds; the relevance vectors are exactly the active, non-bias
training rows whose precision is below `threshold_alpha`; `mu_` and
`Sigma_` are `mu` and `Sigma` indexed by the pruned selection mask (on both
axes for `Sigma`); the noise variance is carried over; and the number of
selected slots counts the bias slot iff the bias precision is below
`threshold_alpha`. When the bias is inactive, extraction raises
`IndexError` instead (see the counterexample). -/
theorem extract_model_bias_active (X : List (List ℚ)) (a0 : ℚ) (arest : List ℚ)
    (urest : List Bool) (mu : List ℚ) (Sigma : List (List ℚ)) (thr s2 : ℚ)
    (hX : X.length = urest.length) (ha : arest.length = urest.length)
    (hmu : mu.length = 1 + countTrue urest)
    (hSrows : Sigma.length = 1 + countTrue urest)
    (hScols : ∀ row ∈ Sigma, row.length = 1 + countTrue urest) :
    extractModel X (a0 :: arest) (true :: urest) mu Sigma thr s2 =
      Except.ok
        { relevance_vectors_ :=
            ((X.zip arest).zip urest).filterMap
              fun p => if p.2 = true ∧ p.1.2 < thr then some p.1.1 else none,
          mu_ := maskFilter mu (selectedMask a0 arest urest thr),
          Sigma_ := (maskFilter Sigma (selectedMask a0 arest urest thr)).map
            fun row => maskFilter row (selectedMask a0 arest urest thr),
          sigma_squared_ := s2 } ∧
    (maskFilter mu (selectedMask a0 arest urest thr)).length =
      (if a0 < thr then 1 else 0) +
        countTrue ((maskFilter arest urest).map fun a => decide (a < thr)) := by
  have hsel : (selectedMask a0 arest urest thr).length = 1 + countTrue urest := by
    simp [selectedMask, maskFilter_length arest urest ha]
    omega
  have h1 : boolMask arest urest = Except.ok (maskFilter arest urest) := by
    simp [boolMask, ha]
  have h2 : boolMask X urest = Except.ok (maskFilter X urest) := by
    simp [boolMask, hX]
  have h3 : boolMask (maskFilter X urest)
      ((maskFilter arest urest).map fun a => decide (a < thr))
      = Except.ok (((X.zip arest).zip urest).filterMap
          fun p => if p.2 = true ∧ p.1.2 < thr then some p.1.1 else none) := by
    rw [boolMask, if_pos, maskFilter_threshold thr X arest urest hX ha]
    rw [List.length_map, maskFilter_length X urest hX, maskFilter_length arest urest ha]
  have h4 : boolMask mu (selectedMask a0 arest urest thr)
      = Except.ok (maskFilter mu (selectedMask a0 arest urest thr)) := by
    rw [boolMask, if_pos (by rw [hmu, hsel])]
  have h5 : boolMask Sigma (selectedMask a0 arest urest thr)
      = Except.ok (maskFilter Sigma (selectedMask a0 arest urest thr)) := by
    rw [boolMask, if_pos (by rw [hSrows, hsel])]
  have h6 : boolMaskCols (maskFilter Sigma (selectedMask a0 arest urest thr))
      (selectedMask a0 arest urest thr)
      = Except.ok ((maskFilter Sigma (selectedMask a0 arest urest thr)).map
          fun row => maskFilter row (selectedMask a0 arest urest thr)) := by
    rw [boolMaskCols, if_pos]
    rw [List.all_eq_true]
    intro row hrow
    rw [decide_eq_true_eq]
    rw [hScols row (maskFilter_mem Sigma (selectedMask a0 arest urest thr) row hrow), hsel]
  refine ⟨?_, ?_⟩
  · show (do
      let alpha_basis ← boolMask arest urest
      let X_rv ← boolMask X urest
      let cond_bias_rv := decide (a0 < thr)
      let cond_basis_rv := alpha_basis.map fun a => decide (a < thr)
      let rv ← boolMask X_rv cond_basis_rv
      let selected_basis := cond_bias_rv :: cond_basis_rv
      let muSel ← boolMask mu selected_basis
      let SigmaRows ← boolMask Sigma selected_basis
      let SigmaSel ← boolMaskCols SigmaRows selected_basis
      Except.ok (⟨rv, muSel, SigmaSel, s2⟩ : FittedModel)) = _
    rw [h1, h2]
    show (do
      let rv ← boolMask (maskFilter X urest)
        ((maskFilter arest urest).map fun a => decide (a < thr))
      let muSel ← boolMask mu (selectedMask a0 arest urest thr)
      let SigmaRows ← boolMask Sigma (selectedMask a0 arest urest thr)
      let SigmaSel ← boolMaskCols SigmaRows (selectedMask a0 arest urest thr)
      Except.ok (⟨rv, muSel, SigmaSel, s2⟩ : FittedModel)) = _
    rw [h3, h4, h5]
    show (do
      let SigmaSel ← boolMaskCols (maskFilter Sigma (selectedMask a0 arest urest thr))
        (selectedMask a0 arest urest thr)
      Except.ok (⟨((X.zip arest).zip urest).filterMap
          fun p : (List ℚ × ℚ) × Bool =>
            if p.2 = true ∧ p.1.2 < thr then some p.1.1 else none,
        maskFilter mu (selectedMask a0 arest urest thr), SigmaSel, s2⟩ : FittedModel)) = _
    rw [h6]
    rfl
  · rw [maskFilter_length mu (selectedMask a0 arest urest thr) (by rw [hmu, hsel]),
      selectedMask]
    cases hb : decide (a0 < thr) with
    | true =>
      rw [decide_eq_true_eq] at hb
      simp [countTrue, List.filter, hb]
      omega
    | false =>
      rw [decide_eq_false_iff_not] at hb
      simp [countTrue, List.filter, hb]

/-- Witness for C6 (amended): a concrete bias-active final state on which
extraction succeeds with the characterized components. -/
theorem extract_model_bias_active_witness :
    extractModel [[3], [4]] [1, 2, INFINITY] [true, true, false]
      [5, 6] [[1, 0], [0, 1]] 100000 9 =
      Except.ok ⟨[[3]], [5, 6], [[1, 0], [0, 1]], 9⟩ :=
  (extract_model_bias_active [[3], [4]] 1 [2, INFINITY] [true, false]
    [5, 6] [[1, 0], [0, 1]] 100000 9 rfl rfl rfl rfl
    (by
      intro row hrow
      simp only [List.mem_cons, List.not_mem_nil, or_false] at hrow
      rcases hrow with h | h
      · rw [h]; rfl
      · rw [h]; rfl)).1

end RVM
